import Mathlib

/-!
# Verification of the DynamicLogger decision engine

This file is a shallow embedding, in Lean 4, of the runtime decision engine of
the DynamicLogger repository (`src/dynamicLogger.ts` and `src/validators.ts`):
configuration resolution, probabilistic sampling, context merging, variable
filtering and serialization, the static safety validator for custom logging
code, log-line formatting, and the singleton initializer.  External
collaborators (the configuration fetcher, the log sink, the `acorn` parser and
the JavaScript evaluation of the constructed function) are modelled as explicit
behaviour parameters, mirroring the interfaces the source code programs
against.  Theorems about the claims of the specification follow the
definitions.
-/

set_option autoImplicit false

/-- A JavaScript runtime value, as far as the logger's data paths inspect one:
strings are special-cased by `_serializeValue`, numbers/booleans/`null`/
`undefined` have fixed `JSON.stringify` renderings, `circular` stands for a
value (e.g. an object with a reference cycle) on which `JSON.stringify`
throws, and `throwingToString msg` stands for an object whose `toString()`
method throws an error with message `msg` — `JSON.stringify` of such a plain
object still succeeds (its function-valued property is skipped, yielding
`"{}"`), but string coercion (`String(v)`, or `v` as an operand of `+` with a
string) throws. -/
inductive JSVal where
  | str (s : String)
  | num (n : Int)
  | bool (b : Bool)
  | null
  | undef
  | circular
  | throwingToString (msg : String)
deriving DecidableEq, Repr

/-- JavaScript-object lookup on an association list (first binding wins, as for
a `Record` built by property assignment, which keeps keys unique). -/
def objGet {α : Type} : List (String × α) → String → Option α
  | [], _ => none
  | (k, v) :: rest, key => if k = key then some v else objGet rest key

/-- `Object.prototype.hasOwnProperty.call(m, k)`. -/
def objHas {α : Type} (m : List (String × α)) (k : String) : Bool :=
  (objGet m k).isSome

/-- JavaScript property assignment `m[k] = v`: overwrite in place when the key
exists, append otherwise (insertion order is preserved, new keys go last). -/
def objSet {α : Type} : List (String × α) → String → α → List (String × α)
  | [], k, v => [(k, v)]
  | (k', v') :: rest, k, v =>
      if k' = k then (k', v) :: rest else (k', v') :: objSet rest k v

/-- Escape one character for a JSON string literal (`JSON.stringify`). -/
def jsonEscapeChar (c : Char) : String :=
  if c = '"' then "\\\""
  else if c = '\\' then "\\\\"
  else if c = '\n' then "\\n"
  else if c = '\r' then "\\r"
  else if c = '\t' then "\\t"
  else String.singleton c

/-- `JSON.stringify` of a string value: double quotes around the escaped
characters. -/
def jsonQuote (s : String) : String :=
  "\"" ++ String.join (s.toList.map jsonEscapeChar) ++ "\""

/-- `JSON.stringify` on a `JSVal`.  It returns `none` for `undefined` (where
the JavaScript function returns the value `undefined` rather than a string)
and fails on `circular`. -/
def jsonStringifyVal : JSVal → Except String (Option String)
  | .str s => .ok (some (jsonQuote s))
  | .num n => .ok (some (toString n))
  | .bool b => .ok (some (if b then "true" else "false"))
  | .null => .ok (some "null")
  | .undef => .ok none
  | .circular => .error "Converting circular structure to JSON"
  | .throwingToString _ => .ok (some "\x7b\x7d")

/-- The body of the `try` block of `_serializeValue`
(src/dynamicLogger.ts:78): a string value passes through unchanged, anything
else goes through `JSON.stringify`. -/
def serializeTryBody : JSVal → Except String (Option String)
  | .str s => .ok (some s)
  | v => jsonStringifyVal v

/-- `DynamicLogger._serializeValue` (src/dynamicLogger.ts:76-83).  The
`strValue === null` branch of the source is dead code (`JSON.stringify` never
returns the value `null`) and therefore has no counterpart here. -/
def _serializeValue (v : JSVal) : String :=
  match serializeTryBody v with
  | .error _ => "<unserializable>"
  | .ok none => "undefined"
  | .ok (some s) => s

/-- The ECMAScript `ToString` coercion for the values of our model — the
semantics of `String(metadata)` at src/dynamicLogger.ts:190 and of the
non-string operand of the `+` at src/dynamicLogger.ts:191.  It is fallible:
coercing an object whose `toString()` throws propagates that throw, and both
call sites in the source sit outside every `try`/`catch`. -/
def jsToString : JSVal → Except String String
  | .str s => .ok s
  | .num n => .ok (toString n)
  | .bool b => .ok (if b then "true" else "false")
  | .null => .ok "null"
  | .undef => .ok "undefined"
  | .circular => .ok "[object Object]"
  | .throwingToString msg => .error msg

/-- JavaScript truthiness of a value (used by `PrefixMessage || ""` at
src/dynamicLogger.ts:148): `""`, `0`, `false`, `null` and `undefined` are
falsy, objects are truthy. -/
def jsTruthy : JSVal → Bool
  | .str s => s != ""
  | .num n => n != 0
  | .bool b => b
  | .null => false
  | .undef => false
  | .circular => true
  | .throwingToString _ => true

/-! ## Static safety validator (src/validators.ts) -/

/-- A validator violation (`interface Violation`, src/validators.ts:5-8). -/
structure Violation where
  message : String
  location : String
deriving DecidableEq, Repr

/-- `interface ValidationResult` (src/validators.ts:10-13). -/
structure ValidationResult where
  isValid : Bool
  violations : List Violation
deriving DecidableEq, Repr

/-- `safeGlobalObjectsAndNamespaces` (src/validators.ts:16-23). -/
def safeGlobalObjectsAndNamespaces : List String :=
  ["Object", "Array", "String", "Number", "Boolean", "Date", "RegExp",
   "Math", "JSON", "Symbol", "Map", "Set", "WeakMap", "WeakSet",
   "Promise", "Intl"]

/-- One entry of the disallowed-keyword table. -/
structure KeywordRule where
  keyword : String
  message : String
deriving DecidableEq, Repr

/-- `disallowedKeywords` (src/validators.ts:26-46); the `async`-related
entries are commented out in the source and hence absent here. -/
def disallowedKeywords : List KeywordRule :=
  [⟨"process", "Usage of 'process' object is disallowed."⟩,
   ⟨"while", "Usage of 'while' loops is disallowed."⟩,
   ⟨"for", "Usage of 'for' loops is disallowed."⟩,
   ⟨"constructor", "Usage of 'constructor' keyword is disallowed."⟩,
   ⟨"eval", "Usage of 'eval' is disallowed."⟩,
   ⟨"Function", "Usage of 'Function' constructor is disallowed."⟩,
   ⟨"require", "Usage of 'require' is disallowed."⟩,
   ⟨"import", "Usage of dynamic 'import()' is disallowed."⟩,
   ⟨"window", "Usage of 'window' object is disallowed."⟩,
   ⟨"document", "Usage of 'document' object is disallowed."⟩,
   ⟨"global", "Usage of 'global' object is disallowed."⟩,
   ⟨"globalThis", "Usage of 'globalThis' is disallowed."⟩]

/-- `code.split('\n')` on the underlying character list: split at every
newline, keeping empty segments (so the result always has one segment more
than the number of newlines). -/
def splitLinesAux : List Char → List (List Char)
  | [] => [[]]
  | c :: rest =>
      match splitLinesAux rest with
      | [] => [[]]
      | l :: ls => if c = '\n' then [] :: l :: ls else (c :: l) :: ls

/-- `code.split('\n')` (src/validators.ts:96). -/
def splitLines (code : String) : List String :=
  (splitLinesAux code.toList).map fun cs => String.mk cs

/-- A word character in the sense of the regex classes `\w` / `\b`:
`[A-Za-z0-9_]`. -/
def jsWordChar (c : Char) : Bool :=
  c.isAlphanum || c = '_'

/-- Whether the position after `prev` is a word boundary, assuming a word
character follows (start of string, or a non-word character before). -/
def wordBoundaryOk : Option Char → Bool
  | none => true
  | some c => !jsWordChar c

/-- Whether the characters right after a keyword occurrence form a word
boundary (end of string, or a non-word character). -/
def tailBoundaryOk (kw cs : List Char) : Bool :=
  match cs.drop kw.length with
  | [] => true
  | c :: _ => !jsWordChar c

/-- The keyword matches at the current position with a trailing boundary. -/
def matchesAt (kw cs : List Char) : Bool :=
  kw.isPrefixOf cs && tailBoundaryOk kw cs

/-- Scan of a line for a whole-word keyword occurrence, tracking the previous
character for the leading boundary. -/
def containsWordAux (kw : List Char) : Option Char → List Char → Bool
  | _, [] => false
  | prev, c :: rest =>
      (wordBoundaryOk prev && matchesAt kw (c :: rest))
        || containsWordAux kw (some c) rest

/-- `new RegExp("\\b" + keyword + "\\b").test(line)`
(src/validators.ts:103-104), for keywords made of word characters. -/
def containsWord (line kw : String) : Bool :=
  containsWordAux kw.toList none line.toList

/-- The single-quote character (U+0027). -/
def squoteChar : Char := Char.ofNat 39

/-- The backquote character (U+0060). -/
def backquoteChar : Char := Char.ofNat 96

/-- The lookbehind class of the assignment regex `(?<![=<>!])`. -/
def assignPrevBlocks : Option Char → Bool
  | none => false
  | some c => c = '=' || c = '<' || c = '>' || c = '!'

/-- The lookahead class of the assignment regex `(?![=>])`. -/
def assignNextBlocks : List Char → Bool
  | [] => false
  | c :: _ => c = '=' || c = '>'

/-- A quote character as counted by the `quotesBefore` heuristic
(src/validators.ts:121): `'`, `"` or a backquote. -/
def quoteCharB (c : Char) : Bool :=
  c = '"' || c = squoteChar || c = backquoteChar

/-- Scan of one line by the assignment regex `(?<![=<>!])=(?![=>])` together
with the even-quote-count heuristic, counting the positions that produce a
violation (src/validators.ts:117-128). -/
def assignScan : Option Char → Nat → List Char → Nat
  | _, _, [] => 0
  | prev, quotes, c :: rest =>
      let hit := c = '=' && !assignPrevBlocks prev && !assignNextBlocks rest
        && quotes % 2 = 0
      (if hit then 1 else 0)
        + assignScan (some c) (quotes + if quoteCharB c then 1 else 0) rest

/-- Number of assignment-heuristic violations reported for one line. -/
def assignmentCount (line : String) : Nat :=
  assignScan none 0 line.toList

/-- The message of the assignment-heuristic violation
(src/validators.ts:124). -/
def assignmentMessage : String :=
  "Potential variable assignment or arrow function declaration detected. Assignments and complex function declarations are disallowed."

/-- The violations produced by the disallowed-keyword loop for line `i`
(0-based), in keyword-table order (src/validators.ts:101-110). -/
def keywordViols (i : Nat) (line : String) : List Violation :=
  disallowedKeywords.filterMap fun f =>
    if containsWord line f.keyword then
      some ⟨f.message, "Line " ++ toString (i + 1)⟩
    else none

/-- The violations produced by the assignment-regex loop for line `i`
(src/validators.ts:117-128). -/
def assignViols (i : Nat) (line : String) : List Violation :=
  List.replicate (assignmentCount line) ⟨assignmentMessage, "Line " ++ toString (i + 1)⟩

/-- All lexical violations of line `i`: keyword violations first, then
assignment violations, matching the statement order in the per-line loop body
(src/validators.ts:99-129). -/
def lineViols (i : Nat) (line : String) : List Violation :=
  keywordViols i line ++ assignViols i line

/-- The full lexical pass: per-line violations in line order. -/
def lexicalViols (lines : List String) : List Violation :=
  (lines.enum.map fun p => lineViols p.1 p.2).flatten

/-- A syntax-tree node as produced by `acorn.parse` and inspected by the
validator's structural pass.  Only the node kinds the walker and
`isSafeCallee` distinguish are represented; `start` is the 0-based character
offset recorded on the nodes whose positions reach a violation message.
Member-expression properties are non-computed identifier properties, which is
the only shape the source inspects (`callee.property.type === 'Identifier'`);
for all other node kinds the walker only visits children. -/
inductive JsAst where
  | program (body : List JsAst)
  | ident (name : String)
  | lit
  | arrayExpr (elems : List JsAst)
  | objectExpr
  | templateLit
  | member (obj : JsAst) (prop : String)
  | call (callee : JsAst) (args : List JsAst) (start : Nat)
  | assign (left right : JsAst) (start : Nat)
  | arrowFn (body : JsAst)
  | funcExpr (body : JsAst)
deriving Repr

/-- The unwrapping loop of `isSafeCallee` (src/validators.ts:66-68): follow
`.object` down a member-expression chain to its base. -/
def baseObject : JsAst → JsAst
  | .member obj _ => baseObject obj
  | x => x

/-- `isSafeCallee(node, allAvailableLocals)` (src/validators.ts:52-91), taking
the `CallExpression` node whose callee is classified. -/
def isSafeCallee (node : JsAst) (allAvailableLocals : List String) : Bool :=
  match node with
  | .call callee _ _ =>
      match callee with
      | .ident n =>
          safeGlobalObjectsAndNamespaces.contains n || allAvailableLocals.contains n
      | .member obj _ =>
          match baseObject obj with
          | .ident n =>
              safeGlobalObjectsAndNamespaces.contains n || allAvailableLocals.contains n
          | .lit => true
          | .arrayExpr _ => true
          | .objectExpr => true
          | .templateLit => true
          | _ => false
      | _ => false
  | _ => false

/-- `getLineNumberFromPosition` (src/validators.ts:48-50):
`code.substring(0, position).split('\n').length`. -/
def getLineNumberFromPosition (code : String) (position : Nat) : Nat :=
  (splitLinesAux (code.toList.take position)).length

/-- The best-effort callee description built for a call violation
(src/validators.ts:150-161). -/
def calleeDescription (callee : JsAst) : String :=
  match callee with
  | .ident n => n
  | .member obj prop =>
      (match obj with | .ident n => n | _ => "[expr]") ++ "." ++ prop
  | _ => "unknown function"

/-- The violation (if any) pushed by the `CallExpression` visitor
(src/validators.ts:146-166). -/
def callViolation (code : String) (locals : List String) (callee : JsAst)
    (args : List JsAst) (start : Nat) : List Violation :=
  if isSafeCallee (.call callee args start) locals then []
  else
    [⟨"Disallowed function call: " ++ calleeDescription callee,
      "Line " ++ toString (getLineNumberFromPosition code start)⟩]

/-- The violation pushed by the `AssignmentExpression` visitor
(src/validators.ts:171-176). -/
def assignViolation (code : String) (start : Nat) : Violation :=
  ⟨"Direct assignment expressions are disallowed.",
   "Line " ++ toString (getLineNumberFromPosition code start)⟩

mutual
/-- The `walkSimple` traversal of the structural pass
(src/validators.ts:145-178): children are visited before a node's own
violation is recorded (acorn-walk's `simple` runs the base walker first, so
the visitors fire post-order). -/
def walkNode (code : String) (locals : List String) : JsAst → List Violation
  | .program body => walkList code locals body
  | .ident _ => []
  | .lit => []
  | .arrayExpr elems => walkList code locals elems
  | .objectExpr => []
  | .templateLit => []
  | .member obj _ => walkNode code locals obj
  | .call callee args start =>
      walkNode code locals callee ++ walkList code locals args
        ++ callViolation code locals callee args start
  | .assign l r start =>
      walkNode code locals l ++ walkNode code locals r
        ++ [assignViolation code start]
  | .arrowFn body => walkNode code locals body
  | .funcExpr body => walkNode code locals body

/-- Traversal of a child list, left to right. -/
def walkList (code : String) (locals : List String) : List JsAst → List Violation
  | [] => []
  | x :: xs => walkNode code locals x ++ walkList code locals xs
end

/-- The outcome of `acorn.parse`: a tree, or a syntax error carrying
`error.message` and (when present) `error.loc.line`. -/
structure ParseErr where
  message : String
  line : Option Nat
deriving Repr

/-- The violation built from an acorn parse error (src/validators.ts:180-186). -/
def parseErrViolation (e : ParseErr) : Violation :=
  ⟨"Syntax error in custom code: " ++ e.message,
   match e.line with
   | some n => "Line " ++ toString n
   | none => "Unknown location"⟩

/-- `validateTSCode(code, availableLocals)` (src/validators.ts:94-193).  The
call to the external `acorn` parser is the `parsed` parameter: the structural
pass runs on its tree, and a parse error short-circuits to invalid, exactly as
the source's `try`/`catch` does.  The lexical pass (disallowed keywords and
the assignment-regex heuristic, per line) runs first and short-circuits when
it found any violation. -/
def validateTSCode (code : String) (availableLocals : List String)
    (parsed : Except ParseErr JsAst) : ValidationResult :=
  let lines := splitLines code
  let lexical := lexicalViols lines
  if lexical = [] then
    match parsed with
    | .error e => ⟨false, [parseErrViolation e]⟩
    | .ok ast =>
        let vs := walkNode code availableLocals ast
        ⟨vs.isEmpty, vs⟩
  else ⟨false, lexical⟩

/-! ## Decision engine (src/dynamicLogger.ts) -/

/-- `Partial<LoggerConfig>` as a fetcher may return it
(src/dynamicLogger.ts:16): `none` in `SamplingRate` models a missing or
non-`number` field, `none` in `VariablesToLog` a missing or non-array field.
`PrefixMessage` is untyped at runtime — the config guard never inspects it —
so it is an arbitrary `JSVal` (`none` = absent/`undefined`); variable names
are strings, per the declared `LoggerConfig` type. -/
structure PartialConfig where
  VariablesToLog : Option (List String)
  SamplingRate : Option Rat
  PrefixMessage : Option JSVal
  CustomLoggingCode : Option String
deriving Repr

/-- `interface LoggerConfig` (src/dynamicLogger.ts:9-14) after the
normalisation at src/dynamicLogger.ts:145-150.  `PrefixMessage` stays a
`JSVal`: the `|| ""` at line 148 only replaces falsy values, so a truthy
non-string fetched `PrefixMessage` survives into the config and is coerced
only by the `+` at line 191. -/
structure LoggerConfigR where
  VariablesToLog : List String
  SamplingRate : Rat
  PrefixMessage : JSVal
  CustomLoggingCode : Option String
deriving Repr

/-- How the `Promise.race` of fetch and timeout settles
(src/dynamicLogger.ts:120-125): the fetch resolves first (possibly with
`null`), the fetch rejects first, or the timer fires first. -/
inductive FetchOutcome where
  | settled (v : Option PartialConfig)
  | rejected (msg : String)
  | timedOut
deriving Repr

/-- Outcome of invoking the constructed custom function
(src/dynamicLogger.ts:224): it returns a value, or it throws one.  For a
thrown value, the `catch` block reads `evalError.message`
(src/dynamicLogger.ts:227) — a property access that itself either produces a
value (`undefined` for a thrown non-object) or throws (a throwing `message`
getter); that access happens inside the `catch` block, outside any further
`try`. -/
inductive EvalOutcome where
  | ok (v : JSVal)
  | thrown (messageAccess : Except String JSVal)
deriving Repr

/-- The observable behaviour of the injected collaborators and of the
environment during one `dynamicLog` call: the race outcome, the `Math.random()`
draw, the `acorn` parse of the custom code (used only when custom code is
validated), the outcome of invoking the constructed custom function, and the
`logFunction` sink (which may throw). -/
structure Behaviors where
  fetch : FetchOutcome
  draw : Rat
  parsed : Except ParseErr JsAst
  evalOutcome : EvalOutcome
  sink : Except String Unit

/-- Terminal state of one `dynamicLog` call. -/
inductive DLOutcome where
  | abortedBadKey
  | abortedFetch (errMsg : String)
  | abortedMalformed
  | skippedSampling
  | delivered (line : String)
  | deliveryFailed (line : String) (errMsg : String)
deriving DecidableEq, Repr

/-- The `await Promise.race(...)` step as an `Except`: a rejection or a fired
timer is a thrown error, caught by the surrounding `catch`
(src/dynamicLogger.ts:119-131). -/
def fetchConfig (b : FetchOutcome) (fetchTimeoutMs : Nat) (uniqueKey : String) :
    Except String (Option PartialConfig) :=
  match b with
  | .settled v => .ok v
  | .rejected msg => .error msg
  | .timedOut =>
      .error ("Config fetch for key '" ++ uniqueKey ++ "' timed out after "
        ++ toString fetchTimeoutMs ++ "ms.")

/-- The malformed-config guard and normalisation
(src/dynamicLogger.ts:133-150): a missing fetch result, a non-numeric
`SamplingRate` or a non-array `VariablesToLog` make the config count as
absent; `PrefixMessage || ""` keeps a truthy `PrefixMessage` value as it is
and replaces a falsy or absent one by `""`. -/
def configCheck (fetched : Option PartialConfig) : Option LoggerConfigR :=
  match fetched with
  | none => none
  | some f =>
      match f.SamplingRate, f.VariablesToLog with
      | some rate, some vtl =>
          some ⟨vtl, rate,
            (match f.PrefixMessage with
             | some v => if jsTruthy v then v else .str ""
             | none => .str ""),
            f.CustomLoggingCode⟩
      | _, _ => none

/-- The sampling gate condition of src/dynamicLogger.ts:154:
`config.SamplingRate <= 0 || Math.random() >= config.SamplingRate` (`true`
means the call is skipped). -/
def samplingSkips (rate draw : Rat) : Bool :=
  decide (rate ≤ 0) || decide (draw ≥ rate)

/-- The ALS merge loop (src/dynamicLogger.ts:169-177): for each ambient store
entry in order, add it only when the key is not already a property of the
accumulated context. -/
def mergeLoop : List (String × JSVal) → List (String × JSVal) → List (String × JSVal)
  | [], acc => acc
  | (k, v) :: rest, acc =>
      mergeLoop rest (if objHas acc k then acc else objSet acc k v)

/-- Context assembly (src/dynamicLogger.ts:165-177): start from a copy of the
transformer-provided locals, then merge the ambient ALS store (when present)
without overriding existing keys. -/
def mergeContext (locals : List (String × JSVal))
    (alsStore : Option (List (String × JSVal))) : List (String × JSVal) :=
  match alsStore with
  | none => locals
  | some store => mergeLoop store locals

/-- The filtering loop body (src/dynamicLogger.ts:181-186): for each requested
name, copy the serialized context value when the context has the key. -/
def filterLoop (ctx : List (String × JSVal)) :
    List String → List (String × String) → List (String × String)
  | [], acc => acc
  | name :: rest, acc =>
      filterLoop ctx rest
        (match objGet ctx name with
         | some v => objSet acc name (_serializeValue v)
         | none => acc)

/-- Variable filtering (src/dynamicLogger.ts:179-187), including the
`Object.keys(contextLocals).length > 0` guard. -/
def filterVariables (variablesToLog : List String)
    (ctx : List (String × JSVal)) : List (String × String) :=
  if 0 < ctx.length then filterLoop ctx variablesToLog [] else []

/-- `JSON.stringify` of the filtered-variables record, whose values are
already strings (src/dynamicLogger.ts:93). -/
def jsonStringifyStrObj (vars : List (String × String)) : String :=
  "\x7b"
    ++ String.intercalate ","
        (vars.map fun kv => jsonQuote kv.1 ++ ":" ++ jsonQuote kv.2)
    ++ "\x7d"

/-- `JSON.stringify(validationResult.violations)`
(src/dynamicLogger.ts:233). -/
def jsonOfViolations (vs : List Violation) : String :=
  "["
    ++ String.intercalate ","
        (vs.map fun v =>
          "\x7b\"message\":" ++ jsonQuote v.message
            ++ ",\"location\":" ++ jsonQuote v.location ++ "\x7d")
    ++ "]"

/-- The first two segments of `_formatLogString`
(src/dynamicLogger.ts:91-94): key and message always, variable values only
when at least one variable was filtered in. -/
def _formatBase (uniqueKey finalMessage : String)
    (varsArg : Option (List (String × String))) : String :=
  let s := "Unique Key: [" ++ uniqueKey ++ "] - Message: [" ++ finalMessage ++ "]"
  match varsArg with
  | some vars =>
      if 0 < vars.length then s ++ " - Variable Values: " ++ jsonStringifyStrObj vars
      else s
  | none => s

/-- `DynamicLogger._formatLogString` (src/dynamicLogger.ts:85-100): the
custom-code segment is appended whenever `customCodeOutput` is not
`undefined`. -/
def _formatLogString (uniqueKey finalMessage : String)
    (varsArg : Option (List (String × String)))
    (customCodeOutput : Option String) : String :=
  match customCodeOutput with
  | some out =>
      _formatBase uniqueKey finalMessage varsArg
        ++ " - Output of Custom Logging Code: [" ++ out ++ "]"
  | none => _formatBase uniqueKey finalMessage varsArg

/-- JavaScript `String.prototype.trim`. -/
def jsTrim (s : String) : String :=
  String.mk ((s.toList.dropWhile Char.isWhitespace).reverse.dropWhile
    Char.isWhitespace).reverse

/-- `metadataString` (src/dynamicLogger.ts:190): `""` for a missing, `null` or
`undefined` metadata argument, `String(metadata)` otherwise.  The `String()`
call sits outside every `try`/`catch`, so a throwing coercion propagates. -/
def metadataToString : Option JSVal → Except String String
  | none => .ok ""
  | some .null => .ok ""
  | some .undef => .ok ""
  | some v => jsToString v

/-- The custom-logging-code stage (src/dynamicLogger.ts:193-238): `"NA"` when
no non-blank custom code string is configured; otherwise validate against the
context's keys, then either serialize the evaluation result, report the thrown
value's `.message` as `<EvalError: ...>`, or report the violations as
`<ValidationViolations: ...>`.  The stage is fallible: when the thrown value's
`.message` access itself throws (inside the `catch` block at
src/dynamicLogger.ts:227, which no further `try` protects), the throw
propagates out of `dynamicLog`. -/
def customCodeStage (customCode : Option String) (ctx : List (String × JSVal))
    (parsed : Except ParseErr JsAst) (evalOutcome : EvalOutcome) :
    Except String String :=
  match customCode with
  | none => .ok "NA"
  | some codeStr =>
      if codeStr ≠ "" ∧ jsTrim codeStr ≠ "" then
        let validationResult := validateTSCode codeStr (ctx.map Prod.fst) parsed
        if validationResult.isValid then
          match evalOutcome with
          | .ok output => .ok (_serializeValue output)
          | .thrown (.ok msgVal) =>
              .ok ("<EvalError: " ++ _serializeValue msgVal ++ ">")
          | .thrown (.error e) => .error e
        else
          .ok ("<ValidationViolations: "
            ++ jsonOfViolations validationResult.violations ++ ">")
      else .ok "NA"

/-- The log line built once the message and custom-code output strings exist
(src/dynamicLogger.ts:161-242): filtered variables, final message, custom code
output (always a string, `"NA"` by default), assembled by
`_formatLogString`. -/
def dynamicLogLine (uniqueKey : String) (config : LoggerConfigR)
    (ctx : List (String × JSVal))
    (finalMessage customCodeOutputString : String) : String :=
  let filteredVars := filterVariables config.VariablesToLog ctx
  let hasVars := !filteredVars.isEmpty
  _formatLogString uniqueKey finalMessage
    (if hasVars then some filteredVars else none) (some customCodeOutputString)

/-- The sink invocation wrapped in `try`/`catch`
(src/dynamicLogger.ts:243-247). -/
def deliverStage (line : String) (sink : Except String Unit) : DLOutcome :=
  match sink with
  | .ok _ => .delivered line
  | .error e => .deliveryFailed line e

/-- `DynamicLogger.dynamicLog` (src/dynamicLogger.ts:108-248), as a function of
the call arguments, the ambient ALS store, and the collaborator behaviours.
The result is `Except`-typed so that an uncaught exception surfaces as
`.error`: every fallible step the source wraps in `try`/`catch` (fetch race,
custom-function invocation, sink call) is caught exactly where the source
catches it, while the three coercions the source leaves unguarded —
`String(metadata)` at line 190, the `ToString` of `config.PrefixMessage`
performed by the `+` at line 191, and the `evalError.message` access at line
227 — propagate as `.error` (the async function's promise rejects), in the
source's evaluation order. -/
def dynamicLog (fetchTimeoutMs : Nat) (uniqueKey : String)
    (metadata : Option JSVal) (allAvailableLocals : List (String × JSVal))
    (alsStore : Option (List (String × JSVal))) (b : Behaviors) :
    Except String DLOutcome :=
  if uniqueKey = "" then .ok .abortedBadKey
  else
    match fetchConfig b.fetch fetchTimeoutMs uniqueKey with
    | .error e => .ok (.abortedFetch e)
    | .ok fetched =>
        match configCheck fetched with
        | none => .ok .abortedMalformed
        | some config =>
            if samplingSkips config.SamplingRate b.draw then .ok .skippedSampling
            else
              match metadataToString metadata with
              | .error e => .error e
              | .ok metadataString =>
                  match jsToString config.PrefixMessage with
                  | .error e => .error e
                  | .ok prefixString =>
                      match customCodeStage config.CustomLoggingCode
                          (mergeContext allAvailableLocals alsStore)
                          b.parsed b.evalOutcome with
                      | .error e => .error e
                      | .ok customCodeOutputString =>
                          .ok (deliverStage
                            (dynamicLogLine uniqueKey config
                              (mergeContext allAvailableLocals alsStore)
                              (prefixString ++ metadataString)
                              customCodeOutputString)
                            b.sink)

/-! ## Singleton initializer (src/dynamicLogger.ts:27-74) -/

/-- The constructor-injected state of a `DynamicLogger` instance; the two
function-valued collaborators are identified by opaque tags. -/
structure DLInstance where
  configFetcher : Nat
  logFunction : Nat
  fetchTimeoutMs : Nat
  internalVerbose : Bool
deriving DecidableEq, Repr

/-- The private constructor (src/dynamicLogger.ts:35-45):
`options.fetchTimeoutMs || 2000` (so an explicit `0` also falls back) and
`!!options.verbose`. -/
def mkDLInstance (configFetcher logFunction : Nat)
    (fetchTimeoutMs : Option Nat) (verbose : Option Bool) : DLInstance :=
  ⟨configFetcher, logFunction,
   match fetchTimeoutMs with
   | some t => if t = 0 then 2000 else t
   | none => 2000,
   verbose.getD false⟩

/-- `DynamicLogger.DLInitializer` (src/dynamicLogger.ts:50-66) acting on the
static `instance` field: the collaborator arguments model JavaScript
truthiness (`none` is a missing/falsy argument).  Returns the new static state
together with the returned instance, or the thrown error. -/
def DLInitializer (instanceField : Option DLInstance)
    (configFetcher logFunction : Option Nat)
    (fetchTimeoutMs : Option Nat) (verbose : Option Bool) :
    Except String (Option DLInstance × DLInstance) :=
  match instanceField with
  | some inst => .ok (some inst, inst)
  | none =>
      match configFetcher, logFunction with
      | some cf, some lf =>
          let inst := mkDLInstance cf lf fetchTimeoutMs verbose
          .ok (some inst, inst)
      | _, _ =>
          .error "DynamicLogger: configFetcher and logFunction are required for initialization."

/-- `DynamicLogger.getInstance` (src/dynamicLogger.ts:69-74). -/
def getInstance (instanceField : Option DLInstance) : Except String DLInstance :=
  match instanceField with
  | none => .error "DynamicLogger: Not initialized. Call DLInitializer first."
  | some inst => .ok inst

/-! ## Concrete artefacts used by individual claims -/

/-- The collaborator behaviours of the C1 end-to-end scenario: the fetch
resolves immediately with `{VariablesToLog: ["x"], SamplingRate: 1,
PrefixMessage: "P: "}` and no custom code, the draw is `0`, and the sink
succeeds.  The parse and evaluation behaviours are irrelevant because no
custom code is configured. -/
def behaviorsC1 : Behaviors :=
  ⟨.settled (some ⟨some ["x"], some 1, some (.str "P: "), none⟩), 0,
   .ok (.program []), .ok .null, .ok ()⟩

/-- The acorn tree of the expression `(() => 1)()`: a `CallExpression` at
offset 0 whose callee is an `ArrowFunctionExpression` (parentheses leave no
node). -/
def iifeAstC2 : JsAst := .program [.call (.arrowFn .lit) [] 0]

/-- The instance created by a first successful initialization with collaborator
tags `1`, `1` and default options. -/
def instC9 : DLInstance := ⟨1, 1, 2000, false⟩

/-- A value bound in the evaluation scope of the custom function: either a
context value or a host object (the utilities spread into the scope, or an
ambient global such as `console`), identified by a tag. -/
inductive ScopedVal where
  | js (v : JSVal)
  | host (tag : String)
deriving DecidableEq, Repr

/-- The `evalContext` object literal of src/dynamicLogger.ts:206-216:
the spread of `contextLocals` followed by the `als`, `Math`, `JSON` and `Date`
properties (an object literal assigns properties in order, so a later named
property overwrites a spread key of the same name in place). -/
def evalContextObj (contextLocals : List (String × JSVal)) :
    List (String × ScopedVal) :=
  objSet (objSet (objSet (objSet
    (contextLocals.map fun kv => (kv.1, ScopedVal.js kv.2))
    "als" (.host "als")) "Math" (.host "Math")) "JSON" (.host "JSON"))
    "Date" (.host "Date")

/-- `Object.keys(evalContext)`, the parameter names of the constructed
function (src/dynamicLogger.ts:220). -/
def evalContextKeys (contextLocals : List (String × JSVal)) : List String :=
  (evalContextObj contextLocals).map Prod.fst

/-- Modelled from the ECMAScript semantics of functions created by the
`Function` constructor, which is host-runtime behaviour and not part of this
repository's sources: the body of the function built at
src/dynamicLogger.ts:223 (`new Function(...argNames, ...)`) is created in the
*global* scope, so an identifier resolves to the parameter of that name when
one exists and otherwise to the ambient global of that name — the parameter
list shadows, but does not remove, the globals. -/
def newFunctionLookup (scope globals : List (String × ScopedVal))
    (x : String) : Option ScopedVal :=
  match objGet scope x with
  | some v => some v
  | none => objGet globals x

/-! ## Supporting lemmas -/

@[simp] theorem objGet_nil {α : Type} (k : String) :
    objGet ([] : List (String × α)) k = none := rfl

@[simp] theorem objGet_cons {α : Type} (k' : String) (v' : α)
    (rest : List (String × α)) (k : String) :
    objGet ((k', v') :: rest) k = if k' = k then some v' else objGet rest k := rfl

theorem objGet_objSet {α : Type} (m : List (String × α)) (k : String) (v : α)
    (key : String) :
    objGet (objSet m k v) key = if k = key then some v else objGet m key := by
  induction m with
  | nil => simp [objSet, objGet]
  | cons hd tl ih =>
      obtain ⟨k', v'⟩ := hd
      by_cases hk : k' = k
      · subst hk
        by_cases hkey : k' = key <;> simp [objSet, objGet, hkey]
      · by_cases hkey : k' = key
        · subst hkey
          simp [objSet, hk, objGet, Ne.symm hk]
        · simp [objSet, hk, objGet, hkey, ih]

theorem objHas_objSet {α : Type} (m : List (String × α)) (k : String) (v : α)
    (key : String) :
    objHas (objSet m k v) key = if k = key then true else objHas m key := by
  by_cases h : k = key <;> simp [objHas, objGet_objSet, h]


theorem objGet_eq_none_of_objHas_false {α : Type} {m : List (String × α)}
    {k : String} (h : objHas m k = false) : objGet m k = none := by
  cases hG : objGet m k with
  | none => rfl
  | some v => simp [objHas, hG] at h

theorem mergeLoop_preserves :
    ∀ (store acc : List (String × JSVal)) (k : String), objHas acc k = true →
      objGet (mergeLoop store acc) k = objGet acc k := by
  intro store
  induction store with
  | nil => intro acc k _; rfl
  | cons hd tl ih =>
      intro acc k h
      obtain ⟨k', v'⟩ := hd
      by_cases hk' : objHas acc k' = true
      · simpa [mergeLoop, hk'] using ih acc k h
      · have hne : k' ≠ k := fun he => hk' (he ▸ h)
        have hacc' : objGet (objSet acc k' v') k = objGet acc k := by
          simp [objGet_objSet, hne]
        have hhas' : objHas (objSet acc k' v') k = true := by
          simp [objHas_objSet, hne, h]
        calc objGet (mergeLoop ((k', v') :: tl) acc) k
            = objGet (mergeLoop tl (objSet acc k' v')) k := by
              simp [mergeLoop, hk']
          _ = objGet (objSet acc k' v') k := ih _ k hhas'
          _ = objGet acc k := hacc'

theorem mergeLoop_fills :
    ∀ (store acc : List (String × JSVal)) (k : String), objHas acc k = false →
      objGet (mergeLoop store acc) k = objGet store k := by
  intro store
  induction store with
  | nil =>
      intro acc k h
      simpa [mergeLoop] using objGet_eq_none_of_objHas_false h
  | cons hd tl ih =>
      intro acc k h
      obtain ⟨k', v'⟩ := hd
      by_cases hk' : objHas acc k' = true
      · have hne : k' ≠ k := fun he => by rw [he] at hk'; rw [hk'] at h; cases h
        simpa [mergeLoop, hk', hne] using ih acc k h
      · have hstep : mergeLoop ((k', v') :: tl) acc = mergeLoop tl (objSet acc k' v') := by
          simp [mergeLoop, hk']
        by_cases hke : k' = k
        · subst hke
          have hhas' : objHas (objSet acc k' v') k' = true := by
            simp [objHas_objSet]
          rw [hstep, mergeLoop_preserves tl (objSet acc k' v') k' hhas']
          simp [objGet_objSet]
        · have hhas' : objHas (objSet acc k' v') k = false := by
            simp [objHas_objSet, hke, h]
          rw [hstep, ih _ k hhas']
          simp [hke]

theorem filterLoop_objGet (ctx : List (String × JSVal)) :
    ∀ (vtl : List String) (acc : List (String × String)) (k : String),
      objGet (filterLoop ctx vtl acc) k
        = if k ∈ vtl then
            (match objGet ctx k with
             | some v => some (_serializeValue v)
             | none => objGet acc k)
          else objGet acc k := by
  intro vtl
  induction vtl with
  | nil => intro acc k; simp [filterLoop]
  | cons v rest ih =>
      intro acc k
      by_cases hkv : k = v
      · subst hkv
        cases hc : objGet ctx k with
        | some w =>
            simp only [filterLoop, hc, ih, List.mem_cons, true_or, if_true]
            by_cases hr : k ∈ rest
            · simp [hr, hc]
            · simp [hr, hc, objGet_objSet]
        | none =>
            simp only [filterLoop, hc, ih, List.mem_cons, true_or, if_true]
            by_cases hr : k ∈ rest
            · simp [hr, hc]
            · simp [hr, hc]
      · have hvk : ¬v = k := fun h => hkv (Eq.symm h)
        cases hc : objGet ctx v with
        | some w =>
            have hacc : objGet (objSet acc v (_serializeValue w)) k = objGet acc k := by
              simp [objGet_objSet, hvk]
            simp only [filterLoop, hc, ih]
            by_cases hr : k ∈ rest
            · simp [hr, hkv, hacc]
            · simp [hr, hkv, hacc]
        | none =>
            simp only [filterLoop, hc, ih]
            by_cases hr : k ∈ rest
            · simp [hr, hkv]
            · simp [hr, hkv]

theorem length_filterMap_if {α β : Type} (p : α → Bool) (g : α → β) :
    ∀ l : List α,
      (l.filterMap fun a => if p a then some (g a) else none).length
        = (l.filter p).length := by
  intro l
  induction l with
  | nil => rfl
  | cons a l ih => by_cases h : p a <;> simp [h, ih]

theorem keywordViols_length (i : Nat) (line : String) :
    (keywordViols i line).length
      = (disallowedKeywords.filter fun f => containsWord line f.keyword).length :=
  length_filterMap_if _ _ disallowedKeywords

theorem keywordViols_location (i : Nat) (line : String) :
    ∀ v ∈ keywordViols i line, v.location = "Line " ++ toString (i + 1) := by
  intro v hv
  simp only [keywordViols, List.mem_filterMap] at hv
  obtain ⟨f, _, hf⟩ := hv
  by_cases h : containsWord line f.keyword <;> simp [h] at hf
  exact hf ▸ rfl

theorem lexicalViols_ne_nil_of_keywordHit {code : String}
    (h : ∃ line ∈ splitLines code, ∃ f ∈ disallowedKeywords,
      containsWord line f.keyword = true) :
    lexicalViols (splitLines code) ≠ [] := by
  obtain ⟨line, hline, f, hf, hcw⟩ := h
  intro hnil
  obtain ⟨n, hn⟩ := List.mem_iff_get.mp hline
  have hmem : (n.val, line) ∈ (splitLines code).enum := by
    rw [List.mem_enum_iff_getElem?]
    simp [← hn, List.getElem?_eq_getElem]
  have hblock : lineViols n.val line ∈ (splitLines code).enum.map fun p => lineViols p.1 p.2 :=
    List.mem_map.mpr ⟨(n.val, line), hmem, rfl⟩
  have hbnil : lineViols n.val line = [] :=
    (List.flatten_eq_nil_iff.mp hnil) _ hblock
  have hkw : keywordViols n.val line = [] :=
    (List.append_eq_nil.mp hbnil).1
  have := (List.filterMap_eq_nil_iff.mp hkw) f hf
  rw [hcw] at this
  simp at this

theorem validateTSCode_shortcircuit {code : String} (locals : List String)
    (parsed : Except ParseErr JsAst)
    (h : lexicalViols (splitLines code) ≠ []) :
    validateTSCode code locals parsed = ⟨false, lexicalViols (splitLines code)⟩ := by
  simp [validateTSCode, h]

theorem dynamicLogLine_segment (uniqueKey : String) (config : LoggerConfigR)
    (ctx : List (String × JSVal)) (finalMessage customCodeOutputString : String) :
    ∃ p out,
      dynamicLogLine uniqueKey config ctx finalMessage customCodeOutputString
        = p ++ (" - Output of Custom Logging Code: [" ++ out ++ "]") := by
  refine ⟨_formatBase uniqueKey finalMessage
      (if !(filterVariables config.VariablesToLog ctx).isEmpty then
        some (filterVariables config.VariablesToLog ctx)
      else none),
    customCodeOutputString, ?_⟩
  simp [dynamicLogLine, _formatLogString, String.append_assoc]

theorem dynamicLog_delivered_shape (t : Nat) (key : String) (md : Option JSVal)
    (locals : List (String × JSVal)) (als : Option (List (String × JSVal)))
    (b : Behaviors) (s : String)
    (h : dynamicLog t key md locals als b = .ok (.delivered s)
      ∨ ∃ e, dynamicLog t key md locals als b = .ok (.deliveryFailed s e)) :
    ∃ p out, s = p ++ (" - Output of Custom Logging Code: [" ++ out ++ "]") := by
  unfold dynamicLog at h
  by_cases hk : key = ""
  · rw [if_pos hk] at h
    rcases h with h | ⟨e, h⟩ <;> simp at h
  · rw [if_neg hk] at h
    cases hf : fetchConfig b.fetch t key with
    | error e =>
        rw [hf] at h
        rcases h with h | ⟨e', h⟩ <;> simp at h
    | ok fetched =>
        rw [hf] at h
        dsimp only at h
        cases hc : configCheck fetched with
        | none =>
            rw [hc] at h
            rcases h with h | ⟨e', h⟩ <;> simp at h
        | some config =>
            rw [hc] at h
            dsimp only at h
            by_cases hs : samplingSkips config.SamplingRate b.draw = true
            · rw [if_pos hs] at h
              rcases h with h | ⟨e', h⟩ <;> simp at h
            · rw [if_neg hs] at h
              cases hm : metadataToString md with
              | error e =>
                  rw [hm] at h
                  rcases h with h | ⟨e', h⟩ <;> simp at h
              | ok metadataString =>
                  rw [hm] at h
                  dsimp only at h
                  cases hp : jsToString config.PrefixMessage with
                  | error e =>
                      rw [hp] at h
                      rcases h with h | ⟨e', h⟩ <;> simp at h
                  | ok prefixString =>
                      rw [hp] at h
                      dsimp only at h
                      cases hcs : customCodeStage config.CustomLoggingCode
                          (mergeContext locals als) b.parsed b.evalOutcome with
                      | error e =>
                          rw [hcs] at h
                          rcases h with h | ⟨e', h⟩ <;> simp at h
                      | ok customOut =>
                          rw [hcs] at h
                          dsimp only at h
                          have hs' :
                              s = dynamicLogLine key config (mergeContext locals als)
                                (prefixString ++ metadataString) customOut := by
                            cases hsink : b.sink with
                            | ok u =>
                                rw [hsink] at h
                                rcases h with h | ⟨e', h⟩ <;> simp [deliverStage] at h
                                · exact h.symm
                            | error e =>
                                rw [hsink] at h
                                rcases h with h | ⟨e', h⟩ <;> simp [deliverStage] at h
                                · exact h.1.symm
                          rw [hs']
                          exact dynamicLogLine_segment key config
                            (mergeContext locals als)
                            (prefixString ++ metadataString) customOut

/-! ## Claim theorems -/

/-- C4: the sampling gate of `dynamicLog`
(`config.SamplingRate <= 0 || Math.random() >= config.SamplingRate`): a rate
`r ≤ 0` never proceeds; a rate `r ≥ 1` always proceeds for draws in `[0, 1)`;
for `0 < r < 1` the call proceeds iff the draw is strictly below `r`, so
equality at the boundary does not proceed. -/
theorem claim_C4_sampling_gate (r draw : Rat) :
    (r ≤ 0 → samplingSkips r draw = true)
    ∧ (1 ≤ r → 0 ≤ draw → draw < 1 → samplingSkips r draw = false)
    ∧ (0 < r → r < 1 → (samplingSkips r draw = false ↔ draw < r)) := by
  refine ⟨fun h => ?_, fun h1 _ hd1 => ?_, fun h0 _ => ?_⟩
  · simp [samplingSkips, h]
  · have hr0 : ¬r ≤ 0 := by linarith
    have hdr : ¬draw ≥ r := by linarith
    simp [samplingSkips, hr0, hdr]
  · have hr0 : ¬r ≤ 0 := by linarith
    simp only [samplingSkips, decide_eq_false hr0, Bool.false_or,
      decide_eq_false_iff_not, ge_iff_le, not_le]

/-- C4 witness: concrete gate decisions, including the boundary case
`draw = rate` which does not proceed. -/
theorem claim_C4_sampling_gate_witness :
    samplingSkips 0 (1/2) = true ∧ samplingSkips 1 (1/2) = false
      ∧ samplingSkips (1/2) (1/4) = false ∧ samplingSkips (1/2) (1/2) = true := by
  refine ⟨(claim_C4_sampling_gate 0 (1/2)).1 (by norm_num),
    (claim_C4_sampling_gate 1 (1/2)).2.1 (by norm_num) (by norm_num) (by norm_num),
    ((claim_C4_sampling_gate (1/2) (1/4)).2.2 (by norm_num) (by norm_num)).mpr
      (by norm_num), ?_⟩
  have h := (claim_C4_sampling_gate (1/2) (1/2)).2.2 (by norm_num) (by norm_num)
  cases hb : samplingSkips (1/2 : Rat) (1/2) with
  | false =>
      have : (1/2 : Rat) < 1/2 := h.mp hb
      norm_num at this
  | true => rfl

/-- C5: context merging is local-biased: merging with no ambient store is the
identity; every key of the locals keeps its local value in the merged context
(so on a collision the ambient value never overwrites it); and every key
absent from the locals is looked up in the ambient store. -/
theorem claim_C5_merge_local_bias (locals store : List (String × JSVal)) :
    mergeContext locals none = locals
    ∧ (∀ k, objHas locals k = true →
        objGet (mergeContext locals (some store)) k = objGet locals k)
    ∧ (∀ k, objHas locals k = false →
        objGet (mergeContext locals (some store)) k = objGet store k) := by
  refine ⟨rfl, fun k h => ?_, fun k h => ?_⟩
  · exact mergeLoop_preserves store locals k h
  · exact mergeLoop_fills store locals k h

/-- C5 witness: locals `{a: 1}` with ambient `{a: 2, b: 3}` merge to
`{a: 1, b: 3}` — the local value wins and the ambient store fills the gap. -/
theorem claim_C5_merge_local_bias_witness :
    objGet (mergeContext [("a", JSVal.num 1)]
        (some [("a", JSVal.num 2), ("b", JSVal.num 3)])) "a" = some (JSVal.num 1)
    ∧ objGet (mergeContext [("a", JSVal.num 1)]
        (some [("a", JSVal.num 2), ("b", JSVal.num 3)])) "b" = some (JSVal.num 3)
    ∧ mergeContext [("a", JSVal.num 1)]
        (some [("a", JSVal.num 2), ("b", JSVal.num 3)])
        = [("a", JSVal.num 1), ("b", JSVal.num 3)] := by
  refine ⟨?_, ?_, by decide⟩
  · rw [(claim_C5_merge_local_bias [("a", JSVal.num 1)]
      [("a", JSVal.num 2), ("b", JSVal.num 3)]).2.1 "a" (by decide)]
    decide
  · rw [(claim_C5_merge_local_bias [("a", JSVal.num 1)]
      [("a", JSVal.num 2), ("b", JSVal.num 3)]).2.2 "b" (by decide)]
    decide

/-- C6: variable filtering: a name is in the filtered mapping iff it is
requested in `VariablesToLog` and present in the merged context (requested but
missing names are omitted, present but unrequested names are excluded), and
each included value is serialized by `_serializeValue`: strings pass through
unchanged, other serializable values take their `JSON.stringify` form, and
values on which serialization throws become `"<unserializable>"`. -/
theorem claim_C6_filtering (vtl : List String) (ctx : List (String × JSVal)) :
    (∀ k v, objGet ctx k = some v → k ∈ vtl →
        objGet (filterVariables vtl ctx) k = some (_serializeValue v))
    ∧ (∀ k, k ∉ vtl → objGet (filterVariables vtl ctx) k = none)
    ∧ (∀ k, objHas ctx k = false → objGet (filterVariables vtl ctx) k = none)
    ∧ (∀ s, _serializeValue (.str s) = s)
    ∧ (∀ v j, serializeTryBody v = .ok (some j) → _serializeValue v = j)
    ∧ (∀ v e, serializeTryBody v = .error e →
        _serializeValue v = "<unserializable>") := by
  refine ⟨fun k v hget hmem => ?_, fun k hmem => ?_, fun k hhas => ?_,
    fun s => rfl, fun v j h => ?_, fun v e h => ?_⟩
  · have hlen : 0 < ctx.length := by
      cases ctx with
      | nil => simp [objGet] at hget
      | cons hd tl => simp
    rw [filterVariables, if_pos hlen, filterLoop_objGet ctx vtl [] k, if_pos hmem, hget]
  · by_cases hlen : 0 < ctx.length
    · rw [filterVariables, if_pos hlen, filterLoop_objGet ctx vtl [] k, if_neg hmem]
      rfl
    · rw [filterVariables, if_neg hlen]
      rfl
  · have hget : objGet ctx k = none := objGet_eq_none_of_objHas_false hhas
    by_cases hlen : 0 < ctx.length
    · rw [filterVariables, if_pos hlen, filterLoop_objGet ctx vtl [] k, hget]
      by_cases hmem : k ∈ vtl <;> simp [hmem]
    · rw [filterVariables, if_neg hlen]
      rfl
  · rw [_serializeValue, h]
  · rw [_serializeValue, h]

/-- C6 witness: with `variablesToLog = ["a","c"]` and context `{a: 1, b: 2}`,
the filtered mapping holds exactly `a` with serialized value `"1"`; the
missing `c` is silently omitted and the unrequested `b` is excluded; and the
serialization examples: strings pass through, numbers render as JSON text,
and `JSON.stringify` failure yields the sentinel. -/
theorem claim_C6_filtering_witness :
    objGet (filterVariables ["a", "c"] [("a", JSVal.num 1), ("b", JSVal.num 2)]) "a"
        = some "1"
    ∧ objGet (filterVariables ["a", "c"] [("a", JSVal.num 1), ("b", JSVal.num 2)]) "c"
        = none
    ∧ objGet (filterVariables ["a", "c"] [("a", JSVal.num 1), ("b", JSVal.num 2)]) "b"
        = none
    ∧ _serializeValue (.str "hello") = "hello"
    ∧ _serializeValue JSVal.circular = "<unserializable>" := by
  refine ⟨?_, ?_, ?_, ?_, ?_⟩
  · rw [(claim_C6_filtering ["a", "c"] [("a", JSVal.num 1), ("b", JSVal.num 2)]).1
      "a" (JSVal.num 1) (by decide) (by decide)]
    decide
  · exact (claim_C6_filtering ["a", "c"] [("a", JSVal.num 1), ("b", JSVal.num 2)]).2.2.1
      "c" (by decide)
  · exact (claim_C6_filtering ["a", "c"] [("a", JSVal.num 1), ("b", JSVal.num 2)]).2.1
      "b" (by decide)
  · exact (claim_C6_filtering [] []).2.2.2.1 "hello"
  · exact (claim_C6_filtering [] []).2.2.2.2.2 JSVal.circular
      "Converting circular structure to JSON" rfl

/-- C1 counterexample: in the claimed scenario (key `"K"`, message `"hello"`,
locals `{x: 7}`) the string passed to the sink is
`Unique Key: [K] - Message: [P: hello] - Variable Values: {"x":"7"} - Output
of Custom Logging Code: [NA]`, which differs from the claimed line — the
custom-code segment with the `NA` sentinel is appended even though no custom
code was configured, so it is not the case that the segment appears only when
custom code execution was attempted. -/
theorem claim_C1_counterexample :
    dynamicLog 2000 "K" (some (.str "hello")) [("x", JSVal.num 7)] none behaviorsC1
      = .ok (.delivered ("Unique Key: [K] - Message: [P: hello] - Variable Values: \x7b\"x\":\"7\"\x7d - Output of Custom Logging Code: [NA]"))
    ∧ "Unique Key: [K] - Message: [P: hello] - Variable Values: \x7b\"x\":\"7\"\x7d - Output of Custom Logging Code: [NA]"
        ≠ "Unique Key: [K] - Message: [P: hello] - Variable Values: \x7b\"x\":\"7\"\x7d" := by
  exact ⟨rfl, by decide⟩

/-- C1 (amended): in the claimed end-to-end scenario the string passed to the
sink equals `Unique Key: [K] - Message: [P: hello] - Variable Values:
{"x":"7"} - Output of Custom Logging Code: [NA]`; and the custom-code segment
is present in every line `dynamicLog` hands to the sink — with the `NA`
sentinel when no custom code was configured — not only when custom code
execution was attempted. -/
theorem claim_C1_end_to_end :
    (dynamicLog 2000 "K" (some (.str "hello")) [("x", JSVal.num 7)] none behaviorsC1
      = .ok (.delivered ("Unique Key: [K] - Message: [P: hello] - Variable Values: \x7b\"x\":\"7\"\x7d - Output of Custom Logging Code: [NA]")))
    ∧ (∀ (t : Nat) (key : String) (md : Option JSVal)
        (locals : List (String × JSVal)) (als : Option (List (String × JSVal)))
        (b : Behaviors) (s : String),
        dynamicLog t key md locals als b = .ok (.delivered s) →
        ∃ p out, s = p ++ (" - Output of Custom Logging Code: [" ++ out ++ "]"))
    ∧ (∀ (t : Nat) (key : String) (md : Option JSVal)
        (locals : List (String × JSVal)) (als : Option (List (String × JSVal)))
        (b : Behaviors) (s e : String),
        dynamicLog t key md locals als b = .ok (.deliveryFailed s e) →
        ∃ p out, s = p ++ (" - Output of Custom Logging Code: [" ++ out ++ "]")) := by
  refine ⟨rfl, fun t key md locals als b s h =>
      dynamicLog_delivered_shape t key md locals als b s (.inl h),
    fun t key md locals als b s e h =>
      dynamicLog_delivered_shape t key md locals als b s (.inr ⟨e, h⟩)⟩

/-- C1 witness: the custom-code segment (with the `NA` sentinel) is present in
the concrete delivered line of the end-to-end scenario. -/
theorem claim_C1_end_to_end_witness :
    ∃ p out,
      "Unique Key: [K] - Message: [P: hello] - Variable Values: \x7b\"x\":\"7\"\x7d - Output of Custom Logging Code: [NA]"
        = p ++ (" - Output of Custom Logging Code: [" ++ out ++ "]") :=
  claim_C1_end_to_end.2.1 2000 "K" (some (.str "hello")) [("x", JSVal.num 7)]
    none behaviorsC1 _ rfl

/-- C2 counterexample: the immediately-invoked arrow function `(() => 1)()` is
an otherwise clean expression, yet `validateTSCode` reports one call-expression
violation for it and classifies it invalid — `isSafeCallee` does not treat an
inline function expression callee as safe. -/
theorem claim_C2_counterexample :
    isSafeCallee (.call (.arrowFn .lit) [] 0) [] = false
    ∧ validateTSCode "(() => 1)()" [] (.ok iifeAstC2)
        = ⟨false, [⟨"Disallowed function call: unknown function", "Line 1"⟩]⟩ := by
  exact ⟨rfl, by decide⟩

/-- C2 (amended): a call expression whose callee is an inline
(anonymous/arrow) function expression is never classified safe by
`isSafeCallee` — such callees fall into the final `return false` branch — so
an otherwise-clean immediately-invoked function expression produces a
call-expression violation and validates as invalid, as the concrete
`(() => 1)()` run shows. -/
theorem claim_C2_iife_unsafe :
    (∀ (body : JsAst) (args : List JsAst) (start : Nat) (locals : List String),
        isSafeCallee (.call (.arrowFn body) args start) locals = false
        ∧ isSafeCallee (.call (.funcExpr body) args start) locals = false)
    ∧ validateTSCode "(() => 1)()" [] (.ok iifeAstC2)
        = ⟨false, [⟨"Disallowed function call: unknown function", "Line 1"⟩]⟩ := by
  exact ⟨fun body args start locals => ⟨rfl, rfl⟩, by decide⟩

/-- C9 counterexample: with the singleton already initialized, a second
`DLInitializer` call (even with different collaborators) does not raise an
error: it returns `.ok` with the existing instance unchanged — re-initialization
is silently ignored, not an explicit error. -/
theorem claim_C9_counterexample :
    DLInitializer (some instC9) (some 2) (some 2) none none
      = .ok (some instC9, instC9)
    ∧ instC9.configFetcher = 1 ∧ instC9.logFunction = 1 := by
  exact ⟨rfl, rfl, rfl⟩

/-- C9 (amended): after the engine has been initialized, any further
`DLInitializer` call before teardown returns the existing instance and leaves
the static state unchanged, raising no error; only an initial call without the
required collaborators throws, and `getInstance` throws only when no instance
exists. -/
theorem claim_C9_reinit_silently_ignored :
    (∀ (inst : DLInstance) (cf lf t : Option Nat) (v : Option Bool),
        DLInitializer (some inst) cf lf t v = .ok (some inst, inst))
    ∧ (∀ t v, DLInitializer none none none t v
        = .error "DynamicLogger: configFetcher and logFunction are required for initialization.")
    ∧ getInstance none
        = .error "DynamicLogger: Not initialized. Call DLInitializer first."
    ∧ (∀ inst, getInstance (some inst) = .ok inst) := by
  exact ⟨fun inst cf lf t v => rfl, fun t v => rfl, rfl, fun inst => rfl⟩

/-- C8: whenever the expression text contains any disallowed keyword as a
whole word on some line, `validateTSCode` is invalid; the result is the same
for every parse outcome and every locals list (the structural pass is skipped
entirely, so no call-expression or assignment-expression violation from the
tree walk can appear); the violations are exactly the lexical ones, and for
each line the keyword scan contributes exactly one violation per keyword
matching that line, located at that line. -/
theorem claim_C8_lexical_shortcircuit (code : String)
    (locals locals' : List String) (parsed parsed' : Except ParseErr JsAst)
    (h : ∃ line ∈ splitLines code, ∃ f ∈ disallowedKeywords,
      containsWord line f.keyword = true) :
    (validateTSCode code locals parsed).isValid = false
    ∧ validateTSCode code locals parsed = validateTSCode code locals' parsed'
    ∧ (validateTSCode code locals parsed).violations
        = lexicalViols (splitLines code)
    ∧ (∀ i line, (splitLines code).get? i = some line →
        (keywordViols i line).length
            = (disallowedKeywords.filter fun f => containsWord line f.keyword).length
          ∧ ∀ v ∈ keywordViols i line,
              v.location = "Line " ++ toString (i + 1)) := by
  have hne := lexicalViols_ne_nil_of_keywordHit h
  rw [validateTSCode_shortcircuit locals parsed hne,
    validateTSCode_shortcircuit locals' parsed' hne]
  exact ⟨rfl, rfl, rfl, fun i line _ =>
    ⟨keywordViols_length i line, keywordViols_location i line⟩⟩

/-- C8 witness: `"process.exit()"` contains the keyword `process`, so the
validator rejects it with the keyword violation on line 1 no matter what the
parser would have returned. -/
theorem claim_C8_lexical_shortcircuit_witness :
    (validateTSCode "process.exit()" [] (.ok (.program []))).isValid = false
    ∧ validateTSCode "process.exit()" [] (.ok (.program []))
        = validateTSCode "process.exit()" ["fetchData"] (.error ⟨"boom", none⟩) := by
  have h := claim_C8_lexical_shortcircuit "process.exit()" [] ["fetchData"]
    (.ok (.program [])) (.error ⟨"boom", none⟩) (by decide)
  exact ⟨h.1, h.2.1⟩

/-- C10: the keyword scan is purely textual and context-blind: any expression
whose text contains a disallowed keyword as a whole word — anywhere, including
inside a quoted string — is rejected, with a result that does not depend on
the parse outcome (the expression is never parsed); concretely,
`"waiting for x".length`, whose only `for` occurs inside a string literal, is
invalid with the `for` keyword violation on line 1 for every parse outcome. -/
theorem claim_C10_textual_scan :
    (∀ (code : String) (locals locals' : List String)
        (parsed parsed' : Except ParseErr JsAst),
        (∃ line ∈ splitLines code, ∃ f ∈ disallowedKeywords,
          containsWord line f.keyword = true) →
        (validateTSCode code locals parsed).isValid = false
          ∧ validateTSCode code locals parsed = validateTSCode code locals' parsed')
    ∧ (∀ (locals : List String) (parsed : Except ParseErr JsAst),
        validateTSCode "\"waiting for x\".length" locals parsed
          = ⟨false, [⟨"Usage of 'for' loops is disallowed.", "Line 1"⟩]⟩) := by
  constructor
  · intro code locals locals' parsed parsed' h
    have hne := lexicalViols_ne_nil_of_keywordHit h
    rw [validateTSCode_shortcircuit locals parsed hne,
      validateTSCode_shortcircuit locals' parsed' hne]
    exact ⟨rfl, rfl⟩
  · intro locals parsed
    have hne : lexicalViols (splitLines "\"waiting for x\".length") ≠ [] := by decide
    rw [validateTSCode_shortcircuit locals parsed hne]
    have : lexicalViols (splitLines "\"waiting for x\".length")
        = [⟨"Usage of 'for' loops is disallowed.", "Line 1"⟩] := by decide
    rw [this]

/-- C10 witness: the general textual-scan property applied to the concrete
string-literal expression. -/
theorem claim_C10_textual_scan_witness :
    (validateTSCode "\"waiting for x\".length" [] (.ok (.program []))).isValid = false
    ∧ validateTSCode "\"waiting for x\".length" [] (.ok (.program []))
        = validateTSCode "\"waiting for x\".length" ["x"] (.error ⟨"boom", some 1⟩) :=
  claim_C10_textual_scan.1 "\"waiting for x\".length" [] ["x"]
    (.ok (.program [])) (.error ⟨"boom", some 1⟩) (by decide)

/-- C3: the parameter list of the constructed function exposes exactly the
merged context names plus the fixed utilities `als`, `Math`, `JSON`, `Date`
(first conjunct pair) — but the expression `console`, which `validateTSCode`
accepts as valid, resolves to the ambient global `console` rather than to any
passed name, and its value differs between two runs with the same passed
name-to-value table and different global environments: the result of a
validated expression does not depend only on the explicitly passed table, and
ambient global names are reachable. -/
theorem claim_C3_ambient_globals_reachable :
    (validateTSCode "console" ["x"] (.ok (.program [.ident "console"]))).isValid
        = true
    ∧ evalContextKeys [("x", JSVal.num 7)] = ["x", "als", "Math", "JSON", "Date"]
    ∧ objGet (evalContextObj [("x", JSVal.num 7)]) "console" = none
    ∧ newFunctionLookup (evalContextObj [("x", JSVal.num 7)])
        [("console", .host "consoleOfRunA")] "console" = some (.host "consoleOfRunA")
    ∧ newFunctionLookup (evalContextObj [("x", JSVal.num 7)])
        [("console", .host "consoleOfRunB")] "console" = some (.host "consoleOfRunB") := by
  exact ⟨by decide, by decide, by decide, by decide, by decide⟩
